import Mathlib

/-!
Shallow embedding of `src/main.py` (AppStack, a multi-language run-as-you-type
code runner built on Qt) and verification of its specification.

Modelling conventions:
* Machine-level side effects are explicit: the scratch-directory filesystem is
  an association list from path strings to file contents, and every external
  process invocation is answered by an oracle (`Env`) supplied as a parameter,
  so theorems quantify over all possible toolchain behaviours.
* `json.dump` of the record with fields `language` and `code`, and the matching
  `json.load`, are modelled by the `FileData.jsonDoc` constructor and its
  projection: their round-trip is the Python standard library's contract.
* A successful compile step is assumed to create its output binary; a failed
  one creates nothing.
* Python exceptions are the `PyExc` type; a `try`/`except` block is an
  `Except PyExc` value matched by the handler.
* `QProcess.terminate` is modelled as taking effect (the signalled child stops
  counting as alive).
-/

namespace AppStack

/-- The five languages offered by the tab widget, in tab order
(`language_cmds` insertion order in the source). -/
inductive Lang
  | python
  | rust
  | go
  | c
  | cpp
deriving DecidableEq

/-- The tab label / dictionary key used for each language in the source. -/
def langName : Lang → String
  | .python => "Python"
  | .rust => "Rust"
  | .go => "Go"
  | .c => "C"
  | .cpp => "C++"

/-- The `language_cmds` dictionary of `src/main.py` lines 19-25. -/
def language_cmds : Lang → String
  | .python => "python3"
  | .rust => "rustc"
  | .go => "go run"
  | .c => "gcc"
  | .cpp => "g++"

/-- `TEMP_DIR` of `src/main.py` line 15. -/
def TEMP_DIR : String := "appstack_temp"

/-- Result of one completed external process: exit code and captured streams,
as returned by `subprocess.run(..., capture_output=True, text=True)`. -/
structure ProcResult where
  exitcode : Int
  stdout : String
  stderr : String
deriving DecidableEq

/-- Contents of one file in the scratch area. `jsonDoc language code` is the
serialized record written by `json.dump` in `save_code`; `text` is a plain
source-text write; `bin` is a compiled binary (its bytes are never read). -/
inductive FileData
  | jsonDoc (language : String) (code : String)
  | text (s : String)
  | bin
deriving DecidableEq

/-- The filesystem visible to the program: an association list from absolute
or working-directory-relative path strings to file contents. -/
abbrev FS := List (String × FileData)

namespace FS

/-- Contents at `p`, latest write first. -/
def read : FS → String → Option FileData
  | [], _ => none
  | (q, d) :: rest, p => if q = p then some d else read rest p

/-- Remove every entry at path `p` (`os.remove`). -/
def erase : FS → String → FS
  | [], _ => []
  | (q, d) :: rest, p => if q = p then erase rest p else (q, d) :: erase rest p

/-- Create or overwrite the file at `p` (`open(p, "w")` followed by a write). -/
def write (fs : FS) (p : String) (d : FileData) : FS :=
  (p, d) :: fs.erase p

/-- `os.path.exists p`. -/
def pathExists (fs : FS) (p : String) : Bool :=
  (fs.read p).isSome

end FS

/-- A Python exception raised inside `execute_code`'s `try` block. -/
inductive PyExc
  | fileNotFound (path : String)
  | jsonDecode
deriving DecidableEq

/-- `str(e)`: the text the `except` handler turns the exception into. -/
def PyExc.toText : PyExc → String
  | .fileNotFound p => "[Errno 2] No such file or directory: '" ++ p ++ "'"
  | .jsonDecode => "Expecting value: line 1 column 1 (char 0)"

/-- One external process invocation, as issued by `subprocess.run`:
`exec argv` is the list form (argv.head is the program looked up on PATH),
`shell cmd` is the `shell=True` form. -/
inductive Inv
  | exec (argv : List String)
  | shell (cmd : String)
deriving DecidableEq

/-- Oracle for external process behaviour. `exec argv = none` means the
program named by `argv.head` cannot be found, so `subprocess.run` raises
`FileNotFoundError`; the shell form never raises (a missing command is a
nonzero exit with shell diagnostics on stderr). -/
structure Env where
  exec : List String → Option ProcResult
  shell : String → ProcResult

/-- Path of the per-language staging descriptor written by `save_code`. -/
def descPath (language : Lang) : String :=
  TEMP_DIR ++ "/temp_code_" ++ langName language ++ ".json"

/-- `AppStack.save_code` (`src/main.py` lines 137-142): serialize the
language/code record into the fixed per-language descriptor file and return
its path. -/
def save_code (language : Lang) (code : String) (fs : FS) : String × FS :=
  let filename := descPath language
  (filename, fs.write filename (.jsonDoc (langName language) code))

/-- Path of the transient source file for each non-Python language. -/
def sourcePath : Lang → Option String
  | .python => none
  | .rust => some (TEMP_DIR ++ "/temp_code.rs")
  | .go => some (TEMP_DIR ++ "/temp_code.go")
  | .c => some (TEMP_DIR ++ "/temp_code.c")
  | .cpp => some (TEMP_DIR ++ "/temp_code.cpp")

/-- The body of `AppStack.execute_code`'s `try` block (`src/main.py` lines
147-193), with the filesystem passed explicitly and each `subprocess.run`
answered by the oracle and logged. Returns the computed `output` (or the
raised exception), the filesystem afterwards, and the invocation log.

Order of effects is the source's: in the compiled/run-from-source branches,
`open(filename, "w")` truncates the source file before `json.load(open(
code_file))` is evaluated, so a failed descriptor read still leaves an empty
source file behind. -/
def execute_code_body (env : Env) (language : Lang) (code_file : String)
    (fs : FS) : Except PyExc String × FS × List Inv :=
  match language with
  | .python =>
    match fs.read code_file with
    | none => (.error (.fileNotFound code_file), fs, [])
    | some (.jsonDoc _ code) =>
      match env.exec ["python3", "-c", code] with
      | none => (.error (.fileNotFound "python3"), fs, [.exec ["python3", "-c", code]])
      | some p =>
        (.ok (if p.exitcode = 0 then p.stdout else p.stderr), fs,
          [.exec ["python3", "-c", code]])
    | some _ => (.error .jsonDecode, fs, [])
  | .c | .cpp =>
    let ext := if language = .c then "c" else "cpp"
    let filename := TEMP_DIR ++ "/temp_code." ++ ext
    let binary_name := TEMP_DIR ++ "/temp_exec"
    let fs1 := fs.write filename (.text "")
    match fs1.read code_file with
    | none => (.error (.fileNotFound code_file), fs1, [])
    | some (.jsonDoc _ code) =>
      let fs2 := fs1.write filename (.text code)
      let compile_cmd :=
        language_cmds language ++ " " ++ filename ++ " -o " ++ binary_name
      let cp := env.shell compile_cmd
      let fs3 := if cp.exitcode = 0 then fs2.write binary_name .bin else fs2
      let step :=
        if cp.exitcode = 0 then
          let rp := env.shell binary_name
          ((if rp.exitcode = 0 then rp.stdout else rp.stderr),
            [Inv.shell compile_cmd, Inv.shell binary_name])
        else (cp.stderr, [Inv.shell compile_cmd])
      let fs4 := if fs3.pathExists binary_name then fs3.erase binary_name else fs3
      (.ok step.1, fs4, step.2)
    | some _ => (.error .jsonDecode, fs1, [])
  | .rust =>
    let filename := TEMP_DIR ++ "/temp_code.rs"
    let fs1 := fs.write filename (.text "")
    match fs1.read code_file with
    | none => (.error (.fileNotFound code_file), fs1, [])
    | some (.jsonDoc _ code) =>
      let fs2 := fs1.write filename (.text code)
      match env.exec ["rustc", filename] with
      | none => (.error (.fileNotFound "rustc"), fs2, [.exec ["rustc", filename]])
      | some cp =>
        if cp.exitcode = 0 then
          let fs3 := fs2.write "./temp_code" .bin
          match env.exec ["./temp_code"] with
          | none =>
            (.error (.fileNotFound "./temp_code"), fs3,
              [.exec ["rustc", filename], .exec ["./temp_code"]])
          | some rp =>
            let out := if rp.exitcode = 0 then rp.stdout else rp.stderr
            if fs3.pathExists "./temp_code" then
              (.ok out, fs3.erase "./temp_code",
                [.exec ["rustc", filename], .exec ["./temp_code"]])
            else
              (.error (.fileNotFound "./temp_code"), fs3,
                [.exec ["rustc", filename], .exec ["./temp_code"]])
        else (.ok cp.stderr, fs2, [.exec ["rustc", filename]])
    | some _ => (.error .jsonDecode, fs1, [])
  | .go =>
    let filename := TEMP_DIR ++ "/temp_code.go"
    let fs1 := fs.write filename (.text "")
    match fs1.read code_file with
    | none => (.error (.fileNotFound code_file), fs1, [])
    | some (.jsonDoc _ code) =>
      let fs2 := fs1.write filename (.text code)
      match env.exec ["go run", filename] with
      | none => (.error (.fileNotFound "go run"), fs2, [.exec ["go run", filename]])
      | some p =>
        (.ok (if p.exitcode = 0 then p.stdout else p.stderr), fs2,
          [.exec ["go run", filename]])
    | some _ => (.error .jsonDecode, fs1, [])

/-- `AppStack.execute_code` (`src/main.py` lines 144-196): run the body and
catch every raised exception, turning it into `str(e)` as the output text. -/
def execute_code (env : Env) (language : Lang) (code_file : String)
    (fs : FS) : String × FS × List Inv :=
  match execute_code_body env language code_file fs with
  | (.ok out, fs1, tr) => (out, fs1, tr)
  | (.error e, fs1, tr) => (e.toText, fs1, tr)

/-- Lifecycle state of one `QProcess` handle. A terminated process no longer
counts as alive (termination is modelled as effective). -/
inductive ProcState
  | notRunning
  | running
  | terminated
deriving DecidableEq

/-- One `QProcess` handle: configured program, arguments, and state. -/
structure GuiProc where
  program : String
  args : List String
  st : ProcState
deriving DecidableEq

/-- The mutable state of the `AppStack` widget that the claims are about:
the scratch filesystem, the per-language editor buffers, the selected tab,
the output area, the debounce `QTimer` (active flag plus absolute fire
deadline in ms), and the GUI preview process handle. `oldGui` archives
replaced handles so liveness can be counted; `invLog` and `dispatchLog` are
ghost logs of external invocations and of debounce fires. -/
structure World where
  fs : FS
  buffers : Lang → String
  currentLang : Lang
  outputArea : String
  timerActive : Bool
  deadline : Nat
  gui : GuiProc
  oldGui : List GuiProc
  invLog : List Inv
  dispatchLog : List (Lang × String)

/-- `AppStack.__init__` (`src/main.py` lines 51-109): empty editors, the
Python tab selected (first tab), the 1.5 s timer created but not started,
and one fresh never-started `QProcess` handle. -/
def initWorld : World :=
  { fs := [], buffers := fun _ => "", currentLang := .python, outputArea := "",
    timerActive := false, deadline := 0,
    gui := { program := "", args := [], st := .notRunning },
    oldGui := [], invLog := [], dispatchLog := [] }

/-- `AppStack.clear_output` (`src/main.py` lines 131-135): clear the output
area, and terminate the GUI preview process if it is running. The debounce
timer is not touched. -/
def clear_output (w : World) : World :=
  let w1 := { w with outputArea := "" }
  if w1.gui.st = .running then
    { w1 with gui := { w1.gui with st := .terminated } }
  else w1

/-- `AppStack.run_gui_preview` (`src/main.py` lines 198-208): terminate the
previous child if it is running, then replace the handle with a fresh
process started as `python3 -c code`. The replaced handle is archived. -/
def run_gui_preview (code : String) (w : World) : World :=
  let prev := if w.gui.st = .running then { w.gui with st := .terminated } else w.gui
  { w with oldGui := prev :: w.oldGui,
           gui := { program := "python3", args := ["-c", code], st := .running } }

/-- Substring occurrence on character lists. -/
def listContains (pat : List Char) : List Char → Bool
  | [] => pat.isEmpty
  | c :: rest => pat.isPrefixOf (c :: rest) || listContains pat rest

/-- Python's `in` operator on strings: does `s` contain `pat`? -/
def strContains (s pat : String) : Bool :=
  listContains pat.toList s.toList

/-- The content-based routing test of `src/main.py` line 125:
`current_lang == "Python" and ("Tkinter" in code or "PyQt6" in code)`. -/
def guiRoute (language : Lang) (code : String) : Bool :=
  decide (language = Lang.python) &&
    (strContains code "Tkinter" || strContains code "PyQt6")

/-- `AppStack.run_code` (`src/main.py` lines 115-129): stop the timer,
snapshot the active language and its buffer text, stage via `save_code`,
then route: GUI preview for Python text holding a toolkit marker, otherwise
blocking execution whose result text is written to the output area.
`dispatchLog` records each fire's snapshot. -/
def run_code (env : Env) (w : World) : World :=
  let w1 := { w with timerActive := false }
  let current_lang := w1.currentLang
  let code := w1.buffers current_lang
  let sc := save_code current_lang code w1.fs
  let w2 := { w1 with fs := sc.2,
                      dispatchLog := w1.dispatchLog ++ [(current_lang, code)] }
  if guiRoute current_lang code then
    run_gui_preview code w2
  else
    let r := execute_code env current_lang sc.1 w2.fs
    { w2 with fs := r.2.1, outputArea := r.1, invLog := w2.invLog ++ r.2.2 }

/-- External events driving the widget, paired with millisecond timestamps
when traced. -/
inductive Action
  | change (lang : Lang) (text : String)
  | clear
  | selectTab (lang : Lang)

/-- Deliver the pending `QTimer` timeout if it is due at or before time `t`.
`run_code` stops the timer on fire, so at most one fire is pending. -/
def deliverTimer (env : Env) (t : Nat) (w : World) : World :=
  if w.timerActive = true ∧ w.deadline ≤ t then run_code env w else w

/-- Handle one timestamped event: a due timeout fires first; a `change`
writes the edited buffer and (via the `textChanged` signal and
`on_code_change`, `src/main.py` lines 111-113) restarts the 1.5 s timer;
`clear` is the Clear Output button; `selectTab` switches the active tab. -/
def handleEvent (env : Env) (w : World) (ev : Nat × Action) : World :=
  let w1 := deliverTimer env ev.1 w
  match ev.2 with
  | .change lang text =>
    { w1 with buffers := fun l => if l = lang then text else w1.buffers l,
              timerActive := true, deadline := ev.1 + 1500 }
  | .clear => clear_output w1
  | .selectTab lang => { w1 with currentLang := lang }

/-- Run a trace of timestamped events (timestamps nondecreasing). -/
def runTrace (env : Env) (w : World) : List (Nat × Action) → World
  | [] => w
  | ev :: evs => runTrace env (handleEvent env w ev) evs

/-- Let time pass beyond any pending deadline with no further events:
the pending timeout, if any, fires. -/
def settle (env : Env) (w : World) : World :=
  if w.timerActive = true then run_code env w else w

/-- A concrete oracle for witnesses: every program exists and exits 0 with
empty streams. -/
def env0 : Env :=
  { exec := fun _ => some { exitcode := 0, stdout := "", stderr := "" },
    shell := fun _ => { exitcode := 0, stdout := "", stderr := "" } }

/-- A concrete oracle where every invocation exists but exits 1 with a
diagnostic on stderr. -/
def envFail : Env :=
  { exec := fun _ => some { exitcode := 1, stdout := "", stderr := "diag" },
    shell := fun _ => { exitcode := 1, stdout := "", stderr := "diag" } }

/-- A concrete oracle where no list-form program can be found (every
`subprocess.run` list call raises `FileNotFoundError`). -/
def envNone : Env :=
  { exec := fun _ => none,
    shell := fun _ => { exitcode := 127, stdout := "", stderr := "not found" } }

/-- A concrete oracle where `rustc` exists but reports a compile error. -/
def envRustFail : Env :=
  { exec := fun _ => some { exitcode := 1, stdout := "", stderr := "error: expected item" },
    shell := fun _ => { exitcode := 0, stdout := "", stderr := "" } }

/-- Wrap an editor-change record as a trace event. -/
def toChange (e : Nat × Lang × String) : Nat × Action :=
  (e.1, .change e.2.1 e.2.2)

/-- The editor buffers after a sequence of change records has been typed. -/
def applyChanges (b : Lang → String) : List (Nat × Lang × String) → Lang → String
  | [] => b
  | (_, lang, text) :: rest =>
    applyChanges (fun l => if l = lang then text else b l) rest

/-- Every change record arrives strictly before the countdown running at its
point in the sequence elapses: the first before deadline `d`, each later one
before the 1.5 s deadline restarted by its predecessor. -/
def arrivesBeforeDeadline : Nat → List (Nat × Lang × String) → Bool
  | _, [] => true
  | d, (t, _, _) :: rest => decide (t < d) && arrivesBeforeDeadline (t + 1500) rest

/-- Number of live (running) preview child processes, current handle and
archived ones together. -/
def aliveGui (w : World) : Nat :=
  w.oldGui.countP (fun g => decide (g.st = ProcState.running)) +
    (if w.gui.st = ProcState.running then 1 else 0)

/-- A Python program that uses the real (lowercase) `tkinter` module name and
contains neither of the markers `"Tkinter"` and `"PyQt6"`. -/
def tkSample : String :=
  "import tkinter\nroot = tkinter.Tk()\nroot.mainloop()\n"

/-- The widget state with `tkSample` typed into the Python editor. -/
def tkWorld : World :=
  { initWorld with buffers := fun _ => tkSample }

/-- One plain-path dispatch as `run_code` performs it: stage the text with
`save_code`, then hand the returned descriptor path to `execute_code`. -/
def dispatch (env : Env) (language : Lang) (code : String) (fs : FS) :
    String × FS × List Inv :=
  execute_code env language (save_code language code fs).1
    (save_code language code fs).2

/-- The widget state with a text containing the exact marker `"Tkinter"`
typed into the Python editor. -/
def guiWorld : World :=
  { initWorld with buffers := fun _ => "import Tkinter" }

/-! ### Basic filesystem lemmas -/

theorem FS.read_write_self (fs : FS) (p : String) (d : FileData) :
    (fs.write p d).read p = some d := by
  simp [FS.write, FS.read]

theorem FS.read_erase (fs : FS) (p q : String) :
    (fs.erase p).read q = if q = p then none else fs.read q := by
  induction fs with
  | nil => simp [FS.erase, FS.read]
  | cons hd tl ih =>
    obtain ⟨r, d⟩ := hd
    by_cases hrp : r = p
    · subst hrp
      rcases eq_or_ne q r with hq | hq
      · subst hq
        simp [FS.erase, FS.read, ih]
      · simp [FS.erase, FS.read, ih, hq, Ne.symm hq]
    · by_cases hrq : r = q
      · have hqp : q ≠ p := hrq ▸ hrp
        simp [FS.erase, FS.read, hrp, hrq, hqp]
      · simp [FS.erase, FS.read, hrp, hrq, ih]

theorem FS.read_write_other (fs : FS) (p q : String) (d : FileData) (h : q ≠ p) :
    (fs.write p d).read q = fs.read q := by
  simp [FS.write, FS.read, FS.read_erase, h, Ne.symm h]

theorem FS.pathExists_erase_self (fs : FS) (p : String) :
    (fs.erase p).pathExists p = false := by
  simp [FS.pathExists, FS.read_erase]

theorem FS.pathExists_write_self (fs : FS) (p : String) (d : FileData) :
    (fs.write p d).pathExists p = true := by
  simp [FS.pathExists, FS.read_write_self]

/-- The existence-guarded `os.remove` of `src/main.py` lines 172-173 always
leaves the target path absent. -/
theorem FS.pathExists_cleanup (fs : FS) (p : String) :
    FS.pathExists (if fs.pathExists p = true then fs.erase p else fs) p
      = false := by
  cases hb : fs.pathExists p with
  | false => simp [hb]
  | true => simp [hb, FS.pathExists_erase_self]

theorem FS.read_cleanup_other (fs : FS) (b p : String) (h : p ≠ b) :
    FS.read (if fs.pathExists b = true then fs.erase b else fs) p
      = fs.read p := by
  by_cases hb : fs.pathExists b = true <;> simp [hb, FS.read_erase, h]

theorem FS.read_ite_write_other (c : Prop) [Decidable c] (fs : FS)
    (b p : String) (d : FileData) (h : p ≠ b) :
    FS.read (if c then fs.write b d else fs) p = fs.read p := by
  by_cases hc : c <;> simp [hc, FS.read_write_other, h]

/-! ### Projection lemmas about one debounce fire -/

theorem run_code_dispatchLog (env : Env) (w : World) :
    (run_code env w).dispatchLog =
      w.dispatchLog ++ [(w.currentLang, w.buffers w.currentLang)] := by
  by_cases h : guiRoute w.currentLang (w.buffers w.currentLang) = true <;>
    simp [run_code, run_gui_preview, h]

theorem run_code_timerActive (env : Env) (w : World) :
    (run_code env w).timerActive = false := by
  by_cases h : guiRoute w.currentLang (w.buffers w.currentLang) = true <;>
    simp [run_code, run_gui_preview, h]

theorem run_code_currentLang (env : Env) (w : World) :
    (run_code env w).currentLang = w.currentLang := by
  by_cases h : guiRoute w.currentLang (w.buffers w.currentLang) = true <;>
    simp [run_code, run_gui_preview, h]

theorem run_code_buffers (env : Env) (w : World) :
    (run_code env w).buffers = w.buffers := by
  by_cases h : guiRoute w.currentLang (w.buffers w.currentLang) = true <;>
    simp [run_code, run_gui_preview, h]

/-! ### Debounce burst behaviour -/

/-- While every change arrives before the pending countdown elapses, no
timeout is delivered: the timer stays pending, no dispatch is logged, and the
buffers accumulate all the writes. -/
theorem burst_no_fire (env : Env) (es : List (Nat × Lang × String)) :
    ∀ w : World, w.timerActive = true →
      arrivesBeforeDeadline w.deadline es = true →
      (runTrace env w (es.map toChange)).dispatchLog = w.dispatchLog ∧
      (runTrace env w (es.map toChange)).currentLang = w.currentLang ∧
      (runTrace env w (es.map toChange)).timerActive = true ∧
      (runTrace env w (es.map toChange)).buffers = applyChanges w.buffers es := by
  induction es with
  | nil =>
    intro w hact _
    simp [runTrace, applyChanges, hact]
  | cons e rest ih =>
    obtain ⟨t, lang, text⟩ := e
    intro w hact hburst
    have ht : t < w.deadline := by
      simp [arrivesBeforeDeadline] at hburst
      exact hburst.1
    have hrest : arrivesBeforeDeadline (t + 1500) rest = true := by
      simp [arrivesBeforeDeadline] at hburst
      exact hburst.2
    have hcond : ¬(w.timerActive = true ∧ w.deadline ≤ t) := by
      rintro ⟨_, hle⟩
      omega
    have hstep : handleEvent env w (toChange (t, lang, text)) =
        { w with buffers := fun l => if l = lang then text else w.buffers l,
                 timerActive := true, deadline := t + 1500 } := by
      simp [handleEvent, toChange, deliverTimer, hcond]
    have hmain := ih
      { w with buffers := fun l => if l = lang then text else w.buffers l,
               timerActive := true, deadline := t + 1500 }
      rfl hrest
    rw [List.map_cons, runTrace, hstep]
    exact ⟨hmain.1, hmain.2.1, hmain.2.2.1, hmain.2.2.2⟩

/-- When every change in a nonempty sequence edits the buffer of language
`L`, the buffer of `L` afterwards holds the last change's text. -/
theorem applyChanges_getLast (L : Lang) (es : List (Nat × Lang × String)) :
    ∀ (b : Lang → String) (e : Nat × Lang × String),
      (∀ x ∈ es, x.2.1 = L) → es.getLast? = some e →
      applyChanges b es L = e.2.2 := by
  induction es with
  | nil =>
    intro b e _ h
    simp at h
  | cons hd rest ih =>
    intro b e hall hlast
    cases rest with
    | nil =>
      obtain ⟨t, l, s⟩ := hd
      simp at hlast
      have hl : l = L := hall (t, l, s) (by simp)
      subst hl
      rw [← hlast]
      simp [applyChanges]
    | cons h2 t2 =>
      rw [List.getLast?_cons_cons] at hlast
      exact ih _ e (fun x hx => hall x (List.mem_cons_of_mem _ hx)) hlast

/-- Claim C1: for every burst of editor-change events in which each event
arrives before the pending 1.5 s countdown elapses, no dispatch fires during
the burst, and once the window elapses with no further change exactly one
dispatch fires; it uses the language of the tab that is active at fire time
and the buffer text as read at fire time (the accumulated last-write-wins
buffer state, equal to the final event's text when the burst edits the
active buffer), and afterwards no further fire is pending. -/
theorem debounce_burst_single_dispatch (env : Env) (w : World)
    (t0 : Nat) (lang0 : Lang) (text0 : String)
    (es : List (Nat × Lang × String))
    (hTimer : w.timerActive = false)
    (hBurst : arrivesBeforeDeadline (t0 + 1500) es = true) :
    (runTrace env w (((t0, lang0, text0) :: es).map toChange)).dispatchLog
        = w.dispatchLog ∧
    (settle env (runTrace env w
        (((t0, lang0, text0) :: es).map toChange))).dispatchLog
      = w.dispatchLog ++
        [(w.currentLang,
          (runTrace env w (((t0, lang0, text0) :: es).map toChange)).buffers
            w.currentLang)] ∧
    (runTrace env w (((t0, lang0, text0) :: es).map toChange)).buffers
        = applyChanges w.buffers ((t0, lang0, text0) :: es) ∧
    (∀ e : Nat × Lang × String,
        ((t0, lang0, text0) :: es).getLast? = some e →
        (∀ x ∈ (t0, lang0, text0) :: es, x.2.1 = w.currentLang) →
        (settle env (runTrace env w
            (((t0, lang0, text0) :: es).map toChange))).dispatchLog
          = w.dispatchLog ++ [(w.currentLang, e.2.2)]) ∧
    (settle env (runTrace env w
        (((t0, lang0, text0) :: es).map toChange))).timerActive = false := by
  have hcond : ¬(w.timerActive = true ∧ w.deadline ≤ t0) := by
    rintro ⟨h1, _⟩
    rw [hTimer] at h1
    exact Bool.false_ne_true h1
  have hstep : handleEvent env w (toChange (t0, lang0, text0)) =
      { w with buffers := fun l => if l = lang0 then text0 else w.buffers l,
               timerActive := true, deadline := t0 + 1500 } := by
    simp [handleEvent, toChange, deliverTimer, hcond]
  obtain ⟨hlog, hlang, hact, hbuf⟩ := burst_no_fire env es
    { w with buffers := fun l => if l = lang0 then text0 else w.buffers l,
             timerActive := true, deadline := t0 + 1500 } rfl hBurst
  rw [List.map_cons, runTrace, hstep]
  refine ⟨hlog, ?_, hbuf, ?_, ?_⟩
  · rw [settle, if_pos hact, run_code_dispatchLog, hlog, hlang]
  · intro e hlast hall
    rw [settle, if_pos hact, run_code_dispatchLog, hlog, hlang, hbuf]
    rw [show (applyChanges
        (fun l => if l = lang0 then text0 else w.buffers l) es : Lang → String)
      = applyChanges w.buffers ((t0, lang0, text0) :: es) from rfl]
    rw [applyChanges_getLast w.currentLang ((t0, lang0, text0) :: es)
      w.buffers e hall hlast]
  · rw [settle, if_pos hact, run_code_timerActive]

/-- Witness for C1: two keystrokes 1 s apart collapse into one dispatch that
carries the second keystroke's text. -/
theorem debounce_burst_single_dispatch_witness :
    initWorld.timerActive = false ∧
    arrivesBeforeDeadline (0 + 1500) [(1000, Lang.python, "ab")] = true ∧
    (settle env0 (runTrace env0 initWorld
        (((0, Lang.python, "a") :: [(1000, Lang.python, "ab")]).map toChange))).dispatchLog
      = [(Lang.python, "ab")] := by
  refine ⟨rfl, by decide, ?_⟩
  have h := debounce_burst_single_dispatch env0 initWorld 0 .python "a"
    [(1000, .python, "ab")] rfl (by decide)
  rw [h.2.1]
  decide

/-! ### The Clear Output button and the pending timer -/

theorem clear_output_timerActive (w : World) :
    (clear_output w).timerActive = w.timerActive := by
  by_cases h : w.gui.st = ProcState.running <;> simp [clear_output, h]

theorem clear_output_deadline (w : World) :
    (clear_output w).deadline = w.deadline := by
  by_cases h : w.gui.st = ProcState.running <;> simp [clear_output, h]

theorem clear_output_outputArea (w : World) :
    (clear_output w).outputArea = "" := by
  by_cases h : w.gui.st = ProcState.running <;> simp [clear_output, h]

theorem clear_output_gui_running (w : World) (h : w.gui.st = ProcState.running) :
    (clear_output w).gui.st = ProcState.terminated := by
  simp [clear_output, h]

theorem clear_output_gui_idle (w : World) (h : ¬w.gui.st = ProcState.running) :
    (clear_output w).gui = w.gui := by
  simp [clear_output, h]

theorem clear_output_currentLang (w : World) :
    (clear_output w).currentLang = w.currentLang := by
  by_cases h : w.gui.st = ProcState.running <;> simp [clear_output, h]

theorem clear_output_buffers (w : World) :
    (clear_output w).buffers = w.buffers := by
  by_cases h : w.gui.st = ProcState.running <;> simp [clear_output, h]

theorem clear_output_dispatchLog (w : World) :
    (clear_output w).dispatchLog = w.dispatchLog := by
  by_cases h : w.gui.st = ProcState.running <;> simp [clear_output, h]

/-- Counterexample to claim C4 as stated: a change at t = 0 ms starts the
countdown, the Clear Output button is pressed at t = 100 ms — well inside the
1.5 s window — and yet when the window elapses the dispatch fires anyway
(`clear_output` never stops `run_timer`). -/
theorem clear_before_fire_counterexample :
    (settle env0 (runTrace env0 initWorld
        [(0, Action.change Lang.python "x"), (100, Action.clear)])).dispatchLog
      = [(Lang.python, "x")] := by
  decide

/-- Claim C4 (amended): a clear request arriving after a `notifyChanged` but
before the 1.5 s window elapses clears the output area and terminates a live
preview process, but does NOT cancel the pending timer: the timer stays
pending with its original deadline, and the dispatch still occurs when the
window elapses, using the buffer text as edited. -/
theorem clear_keeps_timer_pending (env : Env) (w : World)
    (t0 tc : Nat) (lang : Lang) (text : String)
    (hTimer : w.timerActive = false) (hc : tc < t0 + 1500) :
    (runTrace env w [(t0, .change lang text), (tc, .clear)]).timerActive
        = true ∧
    (runTrace env w [(t0, .change lang text), (tc, .clear)]).deadline
        = t0 + 1500 ∧
    (runTrace env w [(t0, .change lang text), (tc, .clear)]).outputArea = "" ∧
    (w.gui.st = ProcState.running →
      (runTrace env w [(t0, .change lang text), (tc, .clear)]).gui.st
        = ProcState.terminated) ∧
    (¬w.gui.st = ProcState.running →
      (runTrace env w [(t0, .change lang text), (tc, .clear)]).gui = w.gui) ∧
    (settle env (runTrace env w [(t0, .change lang text), (tc, .clear)])).dispatchLog
      = w.dispatchLog ++
        [(w.currentLang,
          if w.currentLang = lang then text else w.buffers w.currentLang)] := by
  have hcond1 : ¬(w.timerActive = true ∧ w.deadline ≤ t0) := by
    rintro ⟨h1, _⟩
    rw [hTimer] at h1
    exact Bool.false_ne_true h1
  have h1 : handleEvent env w (t0, .change lang text) =
      { w with buffers := fun l => if l = lang then text else w.buffers l,
               timerActive := true, deadline := t0 + 1500 } := by
    simp [handleEvent, deliverTimer, hcond1]
  have hcond2 : ¬(t0 + 1500 ≤ tc) := by omega
  have h2 : runTrace env w [(t0, .change lang text), (tc, .clear)] =
      clear_output
        { w with buffers := fun l => if l = lang then text else w.buffers l,
                 timerActive := true, deadline := t0 + 1500 } := by
    rw [runTrace, h1, runTrace, runTrace]
    simp [handleEvent, deliverTimer, hcond2]
  rw [h2]
  refine ⟨?_, ?_, clear_output_outputArea _, ?_, ?_, ?_⟩
  · rw [clear_output_timerActive]
  · rw [clear_output_deadline]
  · intro h
    exact clear_output_gui_running _ h
  · intro h
    exact clear_output_gui_idle _ h
  · rw [settle, if_pos (by rw [clear_output_timerActive]),
      run_code_dispatchLog, clear_output_dispatchLog, clear_output_currentLang,
      clear_output_buffers]

/-- Witness for C4 (amended): concrete run with a clear press 100 ms into
the window. -/
theorem clear_keeps_timer_pending_witness :
    initWorld.timerActive = false ∧ (100 : Nat) < 0 + 1500 ∧
    (runTrace env0 initWorld
        [(0, Action.change Lang.python "x"), (100, Action.clear)]).timerActive
      = true ∧
    (settle env0 (runTrace env0 initWorld
        [(0, Action.change Lang.python "x"), (100, Action.clear)])).dispatchLog
      = initWorld.dispatchLog ++
        [(initWorld.currentLang,
          if initWorld.currentLang = Lang.python then "x"
          else initWorld.buffers initWorld.currentLang)] := by
  have h := clear_keeps_timer_pending env0 initWorld 0 100 .python "x" rfl
    (by decide)
  exact ⟨rfl, by decide, h.1, h.2.2.2.2.2⟩

/-! ### Preview process exclusivity -/

/-- Claim C8: starting a new preview process first signals termination to the
previous one if it is live, so after two consecutive `run_gui_preview` calls
exactly one child process is alive, it is the interpreter started with the
second call's text, and every replaced handle is dead. The hypothesis — no
archived handle is still running — holds initially and is re-established by
the conclusion, so it is an invariant. -/
theorem preview_exclusivity (w : World) (c1 c2 : String)
    (h : ∀ g ∈ w.oldGui, ¬g.st = ProcState.running) :
    aliveGui (run_gui_preview c2 (run_gui_preview c1 w)) = 1 ∧
    (run_gui_preview c2 (run_gui_preview c1 w)).gui.program = "python3" ∧
    (run_gui_preview c2 (run_gui_preview c1 w)).gui.args = ["-c", c2] ∧
    (run_gui_preview c2 (run_gui_preview c1 w)).gui.st = ProcState.running ∧
    ∀ g ∈ (run_gui_preview c2 (run_gui_preview c1 w)).oldGui,
      ¬g.st = ProcState.running := by
  have h0 : w.oldGui.countP (fun g => decide (g.st = ProcState.running)) = 0 :=
    List.countP_eq_zero.mpr (by
      intro g hg
      simpa using h g hg)
  have hprev1 : ¬(if w.gui.st = ProcState.running then
      { w.gui with st := ProcState.terminated } else w.gui).st
        = ProcState.running := by
    by_cases hg : w.gui.st = ProcState.running <;> simp [hg]
  refine ⟨?_, rfl, rfl, rfl, ?_⟩
  · simp only [run_gui_preview, aliveGui]
    simp [List.countP_cons, h0, hprev1]
  · intro g hg
    simp only [run_gui_preview] at hg
    simp at hg
    rcases hg with hg | hg | hg
    · subst hg
      simp
    · subst hg
      exact hprev1
    · exact h g hg

/-- Witness for C8: two consecutive previews from the initial state. -/
theorem preview_exclusivity_witness :
    aliveGui (run_gui_preview "b" (run_gui_preview "a" initWorld)) = 1 ∧
    (run_gui_preview "b" (run_gui_preview "a" initWorld)).gui.args = ["-c", "b"] := by
  have h := preview_exclusivity initWorld "a" "b" (by
    intro g hg
    simp [initWorld] at hg)
  exact ⟨h.1, h.2.2.1⟩

/-! ### Case sensitivity of the GUI-marker routing -/

/-- Claim C10: the GUI-preview routing test is a case-sensitive substring
check for exactly "Tkinter" or "PyQt6". The sample program uses the real
lowercase module name `tkinter`, contains neither marker, and is therefore
not routed to the preview path: `run_code` leaves the preview process alone,
runs the plain blocking interpreter invocation, and shows its output
inline. Texts containing an exact marker are routed. -/
theorem lowercase_tkinter_plain_path :
    strContains tkSample "tkinter" = true ∧
    strContains tkSample "Tkinter" = false ∧
    strContains tkSample "PyQt6" = false ∧
    guiRoute Lang.python tkSample = false ∧
    guiRoute Lang.python "import Tkinter" = true ∧
    guiRoute Lang.python "from PyQt6.QtWidgets import QWidget" = true ∧
    (run_code env0 tkWorld).gui = tkWorld.gui ∧
    (run_code env0 tkWorld).oldGui = tkWorld.oldGui ∧
    (run_code env0 tkWorld).invLog = [Inv.exec ["python3", "-c", tkSample]] ∧
    (run_code env0 tkWorld).outputArea = "" := by
  decide

/-! ### Binary cleanup after compiled-language dispatches -/

/-- Counterexample to claim C2 as stated: for Rust the binary output path is
`./temp_code` in the process working directory — not inside the scratch
directory — and it is removed only on the compile-success path. A Rust
dispatch whose compile step fails leaves an existing `./temp_code` (here: a
leftover binary) in place, so after this compiled-language dispatch the
binary output path still exists and no deletion was attempted. -/
theorem binary_cleanup_counterexample :
    FS.pathExists
      (dispatch envRustFail Lang.rust "fn main() {}"
        [("./temp_code", FileData.bin)]).2.1 "./temp_code" = true := by
  decide

/-- Claim C2 (amended): for C and C++ dispatches the binary path
`appstack_temp/temp_exec` is a fixed path inside the scratch directory,
deletion is attempted unconditionally (guarded by an existence check, hence
non-fatal), and afterwards the path does not exist — whether the compile
step failed, the run step failed, or the run succeeded. For Rust the binary
path is `./temp_code`, outside the scratch directory, and it is deleted only
on the compile-success path: after a Rust dispatch whose compile step
succeeds and whose binary invocation starts, the path does not exist. -/
theorem binary_cleanup_partial (env : Env) (fs : FS) (code : String) :
    FS.pathExists (dispatch env Lang.c code fs).2.1 (TEMP_DIR ++ "/temp_exec")
        = false ∧
    FS.pathExists (dispatch env Lang.cpp code fs).2.1 (TEMP_DIR ++ "/temp_exec")
        = false ∧
    (∀ cp rp : ProcResult,
      env.exec ["rustc", TEMP_DIR ++ "/temp_code.rs"] = some cp →
      cp.exitcode = 0 →
      env.exec ["./temp_code"] = some rp →
      FS.pathExists (dispatch env Lang.rust code fs).2.1 "./temp_code"
        = false) := by
  refine ⟨?_, ?_, ?_⟩
  · simp [dispatch, save_code, execute_code, execute_code_body, descPath,
      TEMP_DIR, langName, FS.read_write_other, FS.read_write_self,
      FS.pathExists_cleanup]
  · simp [dispatch, save_code, execute_code, execute_code_body, descPath,
      TEMP_DIR, langName, FS.read_write_other, FS.read_write_self,
      FS.pathExists_cleanup]
  · intro cp rp hcp hexit hrp
    have hcp2 : env.exec ["rustc", "appstack_temp/temp_code.rs"] = some cp := by
      simpa using hcp
    simp [dispatch, save_code, execute_code, execute_code_body, descPath,
      TEMP_DIR, langName, FS.read_write_other, FS.read_write_self,
      hcp2, hexit, hrp, FS.pathExists_write_self, FS.pathExists_erase_self]

/-- Witness for C2 (amended): all hypotheses hold for the all-succeeding
oracle on the empty filesystem. -/
theorem binary_cleanup_partial_witness :
    (FS.pathExists (dispatch env0 Lang.c "int main(){return 0;}" []).2.1
        (TEMP_DIR ++ "/temp_exec") = false) ∧
    env0.exec ["rustc", TEMP_DIR ++ "/temp_code.rs"]
        = some { exitcode := 0, stdout := "", stderr := "" } ∧
    ({ exitcode := 0, stdout := "", stderr := "" } : ProcResult).exitcode = 0 ∧
    env0.exec ["./temp_code"]
        = some { exitcode := 0, stdout := "", stderr := "" } ∧
    FS.pathExists (dispatch env0 Lang.rust "fn main() {}" []).2.1 "./temp_code"
        = false := by
  have h := binary_cleanup_partial env0 [] "int main(){return 0;}"
  have h2 := binary_cleanup_partial env0 [] "fn main() {}"
  exact ⟨h.1, rfl, rfl, rfl,
    h2.2.2 { exitcode := 0, stdout := "", stderr := "" }
      { exitcode := 0, stdout := "", stderr := "" } rfl rfl rfl⟩

/-! ### The Go dispatch -/

/-- Claim C3 is a code bug: `src/main.py` line 191 calls
`subprocess.run([language_cmds[language], filename])` with
`language_cmds["Go"] = "go run"`, so the list form looks up a program whose
name is literally `"go run"` (with an embedded space). On any environment
with no executable of that name the call raises `FileNotFoundError`, so every
Go dispatch yields the exception text instead of the toolchain's
stdout/stderr. The text is still written to the source file first, and the
single logged invocation shows the malformed argv. -/
theorem go_run_invocation_bug (env : Env) (fs : FS) (code : String)
    (h : env.exec ["go run", TEMP_DIR ++ "/temp_code.go"] = none) :
    (dispatch env Lang.go code fs).1
        = "[Errno 2] No such file or directory: 'go run'" ∧
    (dispatch env Lang.go code fs).2.2
        = [Inv.exec ["go run", TEMP_DIR ++ "/temp_code.go"]] ∧
    (dispatch env Lang.go code fs).2.1.read (TEMP_DIR ++ "/temp_code.go")
        = some (FileData.text code) := by
  have h2 : env.exec ["go run", "appstack_temp/temp_code.go"] = none := by
    simpa using h
  refine ⟨?_, ?_, ?_⟩ <;>
    simp [dispatch, save_code, execute_code, execute_code_body, descPath,
      TEMP_DIR, langName, FS.read_write_other, FS.read_write_self,
      h2, PyExc.toText]

/-- Witness for C3: the concrete missing-toolchain oracle. -/
theorem go_run_invocation_bug_witness :
    envNone.exec ["go run", TEMP_DIR ++ "/temp_code.go"] = none ∧
    (dispatch envNone Lang.go "package main" []).1
      = "[Errno 2] No such file or directory: 'go run'" :=
  ⟨rfl, (go_run_invocation_bug envNone [] "package main" rfl).1⟩

/-! ### Compile failure skips the run step -/

/-- Claim C6: for every compiled-language dispatch whose compile step exits
with a nonzero code, the result payload is the compiler's stderr and the run
step is not invoked — the invocation log holds exactly the compile
invocation. -/
theorem compile_failure_skips_run (env : Env) (fs : FS) (code : String) :
    ((env.shell "gcc appstack_temp/temp_code.c -o appstack_temp/temp_exec").exitcode ≠ 0 →
      (dispatch env Lang.c code fs).1
        = (env.shell "gcc appstack_temp/temp_code.c -o appstack_temp/temp_exec").stderr ∧
      (dispatch env Lang.c code fs).2.2
        = [Inv.shell "gcc appstack_temp/temp_code.c -o appstack_temp/temp_exec"]) ∧
    ((env.shell "g++ appstack_temp/temp_code.cpp -o appstack_temp/temp_exec").exitcode ≠ 0 →
      (dispatch env Lang.cpp code fs).1
        = (env.shell "g++ appstack_temp/temp_code.cpp -o appstack_temp/temp_exec").stderr ∧
      (dispatch env Lang.cpp code fs).2.2
        = [Inv.shell "g++ appstack_temp/temp_code.cpp -o appstack_temp/temp_exec"]) ∧
    (∀ cp : ProcResult, env.exec ["rustc", "appstack_temp/temp_code.rs"] = some cp →
      cp.exitcode ≠ 0 →
      (dispatch env Lang.rust code fs).1 = cp.stderr ∧
      (dispatch env Lang.rust code fs).2.2
        = [Inv.exec ["rustc", "appstack_temp/temp_code.rs"]]) := by
  refine ⟨?_, ?_, ?_⟩
  · intro hcc
    constructor <;>
      simp [dispatch, save_code, execute_code, execute_code_body, descPath,
        TEMP_DIR, langName, language_cmds, FS.read_write_other,
        FS.read_write_self, hcc]
  · intro hcc
    constructor <;>
      simp [dispatch, save_code, execute_code, execute_code_body, descPath,
        TEMP_DIR, langName, language_cmds, FS.read_write_other,
        FS.read_write_self, hcc]
  · intro cp hcp hexit
    constructor <;>
      simp [dispatch, save_code, execute_code, execute_code_body, descPath,
        TEMP_DIR, langName, FS.read_write_other, FS.read_write_self, hcp, hexit]

/-- Witness for C6: the always-failing oracle. -/
theorem compile_failure_skips_run_witness :
    (envFail.shell "gcc appstack_temp/temp_code.c -o appstack_temp/temp_exec").exitcode ≠ 0 ∧
    (dispatch envFail Lang.c "int main(" []).1 = "diag" ∧
    envFail.exec ["rustc", "appstack_temp/temp_code.rs"]
        = some { exitcode := 1, stdout := "", stderr := "diag" } ∧
    (dispatch envFail Lang.rust "fn main(" []).1 = "diag" := by
  have h := compile_failure_skips_run envFail [] "int main("
  have h2 := compile_failure_skips_run envFail [] "fn main("
  exact ⟨by decide, (h.1 (by decide)).1, rfl,
    (h2.2.2 { exitcode := 1, stdout := "", stderr := "diag" } rfl (by decide)).1⟩

/-! ### Invocation-level failures are converted to result text -/

/-- Claim C7: every invocation-level failure inside a dispatch — a toolchain
executable that cannot be found (every list-form `subprocess.run` call:
`python3`, `rustc`, and the malformed `"go run"`) or a filesystem error
(missing staging descriptor) — is caught by the `try`/`except` around
`execute_code`'s body and converted into the same single-text-field result
shape as a nonzero-exit diagnostic. `execute_code` is a total function into
`String × FS × List Inv`, so no exception escapes the dispatch boundary. -/
theorem dispatch_failures_become_text (env : Env) (fs : FS) (code : String) :
    (env.exec ["python3", "-c", code] = none →
      (dispatch env Lang.python code fs).1
        = PyExc.toText (.fileNotFound "python3")) ∧
    (env.exec ["rustc", "appstack_temp/temp_code.rs"] = none →
      (dispatch env Lang.rust code fs).1
        = PyExc.toText (.fileNotFound "rustc")) ∧
    (env.exec ["go run", "appstack_temp/temp_code.go"] = none →
      (dispatch env Lang.go code fs).1
        = PyExc.toText (.fileNotFound "go run")) ∧
    (∀ lang : Lang, FS.read fs (descPath lang) = none →
      (execute_code env lang (descPath lang) fs).1
        = PyExc.toText (.fileNotFound (descPath lang))) := by
  refine ⟨?_, ?_, ?_, ?_⟩
  · intro h
    simp [dispatch, save_code, execute_code, execute_code_body, descPath,
      TEMP_DIR, langName, FS.read_write_other, FS.read_write_self, h]
  · intro h
    simp [dispatch, save_code, execute_code, execute_code_body, descPath,
      TEMP_DIR, langName, FS.read_write_other, FS.read_write_self, h]
  · intro h
    simp [dispatch, save_code, execute_code, execute_code_body, descPath,
      TEMP_DIR, langName, FS.read_write_other, FS.read_write_self, h]
  · intro lang h
    cases lang <;>
      simp [execute_code, execute_code_body, descPath, TEMP_DIR, langName,
        FS.read_write_other, FS.read_write_self, h] at h ⊢

/-- Witness for C7: the missing-toolchain oracle and the empty filesystem. -/
theorem dispatch_failures_become_text_witness :
    envNone.exec ["python3", "-c", "print(1)"] = none ∧
    (dispatch envNone Lang.python "print(1)" []).1
        = PyExc.toText (.fileNotFound "python3") ∧
    FS.read ([] : FS) (descPath Lang.c) = none ∧
    (execute_code envNone Lang.c (descPath Lang.c) ([] : FS)).1
        = PyExc.toText (.fileNotFound (descPath Lang.c)) := by
  have h := dispatch_failures_become_text envNone [] "print(1)"
  exact ⟨rfl, h.1 rfl, rfl, h.2.2.2 Lang.c rfl⟩

/-! ### Round trip through the staging descriptor -/

/-- Claim C9: for every language and text, `save_code` serializes the
language/text record into the fixed per-language descriptor file, and
`execute_code` materializes the source by reading the descriptor back: the
text it writes to the language's source file — or, for Python, passes inline
to the interpreter — is exactly the staged text, for every oracle
behaviour. -/
theorem staging_round_trip (env : Env) (fs : FS) (lang : Lang) (code : String) :
    ((save_code lang code fs).2).read (descPath lang)
        = some (FileData.jsonDoc (langName lang) code) ∧
    (∀ p, sourcePath lang = some p →
      (dispatch env lang code fs).2.1.read p = some (FileData.text code)) ∧
    (lang = Lang.python →
      (dispatch env Lang.python code fs).2.2
        = [Inv.exec ["python3", "-c", code]]) := by
  refine ⟨?_, ?_, ?_⟩
  · simp [save_code, FS.read_write_self]
  · intro p hp
    cases lang with
    | python => simp [sourcePath] at hp
    | rust =>
      simp [sourcePath, TEMP_DIR] at hp
      subst hp
      simp only [dispatch, save_code, execute_code, execute_code_body]
      rcases hm : env.exec ["rustc", "appstack_temp/temp_code.rs"]
          with _ | cp
      · simp [descPath, TEMP_DIR, langName, FS.read_write_other,
          FS.read_write_self, hm]
      · by_cases he : cp.exitcode = 0
        · rcases hr : env.exec ["./temp_code"] with _ | rp
          · simp [descPath, TEMP_DIR, langName, FS.read_write_other,
              FS.read_write_self, hm, he, hr]
          · simp [descPath, TEMP_DIR, langName, FS.read_write_other,
              FS.read_write_self, hm, he, hr, FS.pathExists_write_self,
              FS.read_erase]
        · simp [descPath, TEMP_DIR, langName, FS.read_write_other,
            FS.read_write_self, hm, he]
    | go =>
      simp [sourcePath, TEMP_DIR] at hp
      subst hp
      rcases hm : env.exec ["go run", "appstack_temp/temp_code.go"]
          with _ | p2 <;>
        simp [dispatch, save_code, execute_code, execute_code_body, descPath,
          TEMP_DIR, langName, FS.read_write_other, FS.read_write_self, hm]
    | c =>
      simp [sourcePath, TEMP_DIR] at hp
      subst hp
      simp [dispatch, save_code, execute_code, execute_code_body, descPath,
        TEMP_DIR, langName, language_cmds, FS.read_write_other,
        FS.read_write_self, FS.read_cleanup_other, FS.read_ite_write_other]
    | cpp =>
      simp [sourcePath, TEMP_DIR] at hp
      subst hp
      simp [dispatch, save_code, execute_code, execute_code_body, descPath,
        TEMP_DIR, langName, language_cmds, FS.read_write_other,
        FS.read_write_self, FS.read_cleanup_other, FS.read_ite_write_other]
  · intro _
    rcases hm : env.exec ["python3", "-c", code] with _ | p2 <;>
      simp [dispatch, save_code, execute_code, execute_code_body, descPath,
        TEMP_DIR, langName, FS.read_write_self, hm]

/-- Witness for C9: concrete instantiation of the inner implications for Go
(a run-from-source language with a source file) and Python. -/
theorem staging_round_trip_witness :
    sourcePath Lang.go = some (TEMP_DIR ++ "/temp_code.go") ∧
    (dispatch env0 Lang.go "package main" []).2.1.read
        (TEMP_DIR ++ "/temp_code.go") = some (FileData.text "package main") ∧
    (dispatch env0 Lang.python "print(1)" []).2.2
        = [Inv.exec ["python3", "-c", "print(1)"]] := by
  have h := staging_round_trip env0 [] Lang.go "package main"
  have h2 := staging_round_trip env0 [] Lang.python "print(1)"
  exact ⟨rfl, h.2.1 (TEMP_DIR ++ "/temp_code.go") rfl, h2.2.2 rfl⟩

/-! ### Routing of a dispatch -/

theorem execute_code_fs_eq_body (env : Env) (lang : Lang) (code_file : String)
    (fs : FS) :
    (execute_code env lang code_file fs).2.1
      = (execute_code_body env lang code_file fs).2.1 := by
  rcases hb : execute_code_body env lang code_file fs with ⟨r, fs1, tr⟩
  cases r <;> simp [execute_code, hb]

/-- `execute_code` never touches any language's staging descriptor file:
it only writes source files, the binary, and their removals. -/
theorem execute_code_body_read_json (env : Env) (lang lang2 : Lang)
    (code_file : String) (fs : FS) :
    ((execute_code_body env lang code_file fs).2.1).read (descPath lang2)
      = fs.read (descPath lang2) := by
  have hc : descPath lang2 ≠ "appstack_temp/temp_code.c" := by
    cases lang2 <;> decide
  have hcpp : descPath lang2 ≠ "appstack_temp/temp_code.cpp" := by
    cases lang2 <;> decide
  have hexe : descPath lang2 ≠ "appstack_temp/temp_exec" := by
    cases lang2 <;> decide
  have hrs : descPath lang2 ≠ "appstack_temp/temp_code.rs" := by
    cases lang2 <;> decide
  have hbin : descPath lang2 ≠ "./temp_code" := by
    cases lang2 <;> decide
  have hgo : descPath lang2 ≠ "appstack_temp/temp_code.go" := by
    cases lang2 <;> decide
  cases lang with
  | python =>
    rcases hm : fs.read code_file with _ | d
    · simp [execute_code_body, hm]
    · cases d with
      | jsonDoc l c =>
        rcases hx : env.exec ["python3", "-c", c] with _ | p <;>
          simp [execute_code_body, hm, hx]
      | text s => simp [execute_code_body, hm]
      | bin => simp [execute_code_body, hm]
  | c =>
    rcases hm : FS.read (fs.write "appstack_temp/temp_code.c" (FileData.text ""))
        code_file with _ | d
    · simp [execute_code_body, TEMP_DIR, hm, FS.read_write_other, hc]
    · cases d with
      | jsonDoc l c2 =>
        simp [execute_code_body, TEMP_DIR, hm, FS.read_cleanup_other,
          FS.read_ite_write_other, FS.read_write_other, hc, hexe]
      | text s => simp [execute_code_body, TEMP_DIR, hm, FS.read_write_other, hc]
      | bin => simp [execute_code_body, TEMP_DIR, hm, FS.read_write_other, hc]
  | cpp =>
    rcases hm : FS.read (fs.write "appstack_temp/temp_code.cpp" (FileData.text ""))
        code_file with _ | d
    · simp [execute_code_body, TEMP_DIR, hm, FS.read_write_other, hcpp]
    · cases d with
      | jsonDoc l c2 =>
        simp [execute_code_body, TEMP_DIR, hm, FS.read_cleanup_other,
          FS.read_ite_write_other, FS.read_write_other, hcpp, hexe]
      | text s => simp [execute_code_body, TEMP_DIR, hm, FS.read_write_other, hcpp]
      | bin => simp [execute_code_body, TEMP_DIR, hm, FS.read_write_other, hcpp]
  | rust =>
    rcases hm : FS.read (fs.write "appstack_temp/temp_code.rs" (FileData.text ""))
        code_file with _ | d
    · simp [execute_code_body, TEMP_DIR, hm, FS.read_write_other, hrs]
    · cases d with
      | jsonDoc l c2 =>
        rcases hx : env.exec ["rustc", "appstack_temp/temp_code.rs"] with _ | cp
        · simp [execute_code_body, TEMP_DIR, hm, hx, FS.read_write_other, hrs]
        · by_cases he : cp.exitcode = 0
          · rcases hr : env.exec ["./temp_code"] with _ | rp
            · simp [execute_code_body, TEMP_DIR, hm, hx, he, hr,
                FS.read_write_other, hrs, hbin]
            · simp [execute_code_body, TEMP_DIR, hm, hx, he, hr,
                FS.pathExists_write_self, FS.read_erase,
                FS.read_write_other, hrs, hbin]
          · simp [execute_code_body, TEMP_DIR, hm, hx, he,
              FS.read_write_other, hrs]
      | text s => simp [execute_code_body, TEMP_DIR, hm, FS.read_write_other, hrs]
      | bin => simp [execute_code_body, TEMP_DIR, hm, FS.read_write_other, hrs]
  | go =>
    rcases hm : FS.read (fs.write "appstack_temp/temp_code.go" (FileData.text ""))
        code_file with _ | d
    · simp [execute_code_body, TEMP_DIR, hm, FS.read_write_other, hgo]
    · cases d with
      | jsonDoc l c2 =>
        rcases hx : env.exec ["go run", "appstack_temp/temp_code.go"] with _ | p
          <;> simp [execute_code_body, TEMP_DIR, hm, hx, FS.read_write_other, hgo]
      | text s => simp [execute_code_body, TEMP_DIR, hm, FS.read_write_other, hgo]
      | bin => simp [execute_code_body, TEMP_DIR, hm, FS.read_write_other, hgo]

/-- Claim C5: dispatch routing is a pure function of language and text. If
and only if the active language is Python and the text contains a GUI
toolkit marker, the dispatch goes to the preview process manager — the
output area and the invocation log are untouched, the preview handle runs
`python3 -c text` — and in every other case the plain path runs: the preview
handle is untouched and the blocking execution's result text is written to
the output area. In both cases the staging descriptor is written before the
mode switch and still holds the dispatched language and text afterwards. -/
theorem dispatch_routing (env : Env) (w : World) :
    (run_code env w).fs.read (descPath w.currentLang)
        = some (FileData.jsonDoc (langName w.currentLang)
            (w.buffers w.currentLang)) ∧
    (guiRoute w.currentLang (w.buffers w.currentLang) = true →
      (run_code env w).outputArea = w.outputArea ∧
      (run_code env w).invLog = w.invLog ∧
      (run_code env w).gui
        = { program := "python3", args := ["-c", w.buffers w.currentLang],
            st := ProcState.running }) ∧
    (guiRoute w.currentLang (w.buffers w.currentLang) = false →
      (run_code env w).gui = w.gui ∧
      (run_code env w).oldGui = w.oldGui ∧
      (run_code env w).outputArea
        = (dispatch env w.currentLang (w.buffers w.currentLang) w.fs).1 ∧
      (run_code env w).invLog
        = w.invLog
          ++ (dispatch env w.currentLang (w.buffers w.currentLang) w.fs).2.2) := by
  refine ⟨?_, ?_, ?_⟩
  · by_cases hg : guiRoute w.currentLang (w.buffers w.currentLang) = true
    · simp [run_code, hg, run_gui_preview, save_code, FS.read_write_self]
    · simp only [run_code, hg, if_false, Bool.false_eq_true]
      simp only [execute_code_fs_eq_body, execute_code_body_read_json]
      simp [save_code, FS.read_write_self]
  · intro hg
    simp [run_code, hg, run_gui_preview]
  · intro hg
    simp [run_code, hg, dispatch]

/-- Witness for C5: the preview implication at a marker-bearing Python text
and the plain implication at a marker-free one. -/
theorem dispatch_routing_witness :
    guiRoute guiWorld.currentLang (guiWorld.buffers guiWorld.currentLang)
        = true ∧
    (run_code env0 guiWorld).outputArea = guiWorld.outputArea ∧
    (run_code env0 guiWorld).gui
        = { program := "python3",
            args := ["-c", guiWorld.buffers guiWorld.currentLang],
            st := ProcState.running } ∧
    guiRoute tkWorld.currentLang (tkWorld.buffers tkWorld.currentLang)
        = false ∧
    (run_code env0 tkWorld).gui = tkWorld.gui := by
  have hg := dispatch_routing env0 guiWorld
  have hp := dispatch_routing env0 tkWorld
  refine ⟨by decide, ?_, ?_, by decide, ?_⟩
  · exact (hg.2.1 (by decide)).1
  · exact (hg.2.1 (by decide)).2.2
  · exact (hp.2.2 (by decide)).1

end AppStack
